import Mathlib

/-!
# Verification of the warehouse reconciliation engine

Shallow embedding of `run_reconciliation` from `src/app.py` (the
reconciliation engine of the warehouse inbound POC), together with proofs
of the specification claims about it.

The engine operates on JSON-shaped Python values produced by the document
extractor: the challan record and the sticker records are Python dicts
holding arbitrary JSON values.  We model JSON values with `JVal`
(JSON numbers are modelled as integers, matching the extractor schemas,
which only produce integer quantities; floating point is out of scope)
and Python dicts as insertion-ordered association lists.  Python's dynamic
failures that the engine can actually hit (`.get` on a non-dict object,
`int + non-number`, iterating a non-iterable) are modelled explicitly with
`PyErr`, so the embedding records exactly where the source code would
raise instead of returning a report.

String operations are modelled after Python's `str`, `str.strip`,
`str.upper` and `str.startswith` restricted to ASCII input (Python's
Unicode-wide case folding and whitespace classes are out of scope; every
claim only exercises ASCII data).
-/

set_option autoImplicit false

namespace Warehouse

/-- A JSON value as held in Python after `json.loads`:  `null`, booleans,
numbers (modelled as integers, see the module comment), strings, arrays
and objects (insertion-ordered key/value lists, unique keys at runtime). -/
inductive JVal where
  | null
  | bool (b : Bool)
  | int (n : Int)
  | str (s : String)
  | arr (xs : List JVal)
  | obj (fields : List (String × JVal))
  deriving Repr

/-- A Python dict with string keys: an insertion-ordered association list. -/
abbrev PyDict := List (String × JVal)

mutual

/-- Python `repr` of a JSON-shaped value (quotes around strings; containers
render their elements' `repr`s, comma separated).  String escaping inside
`repr` is simplified to plain quoting; no claim depends on it. -/
def pyRepr : JVal → String
  | .null => "None"
  | .bool true => "True"
  | .bool false => "False"
  | .int n => toString n
  | .str s => "\x27" ++ s ++ "\x27"
  | .arr xs => "[" ++ pyReprList xs ++ "]"
  | .obj fs => "\x7b" ++ pyReprFields fs ++ "\x7d"

/-- Comma-separated `repr`s of the elements of a Python list. -/
def pyReprList : List JVal → String
  | [] => ""
  | [v] => pyRepr v
  | v :: vs => pyRepr v ++ ", " ++ pyReprList vs

/-- Comma-separated `repr`s of the entries of a Python dict. -/
def pyReprFields : List (String × JVal) → String
  | [] => ""
  | [(k, v)] => "\x27" ++ k ++ "\x27: " ++ pyRepr v
  | (k, v) :: fs => "\x27" ++ k ++ "\x27: " ++ pyRepr v ++ ", " ++ pyReprFields fs

end

/-- Python `str()` of a JSON-shaped value: the identity on strings,
`repr` on everything else (which is what `str` does on `None`, booleans,
integers, lists and dicts). -/
def pyStr : JVal → String
  | .str s => s
  | v => pyRepr v

/-- Python whitespace as stripped by `str.strip()` (ASCII part). -/
def pyIsSpace (c : Char) : Bool :=
  c == ' ' || c == '\t' || c == '\n' || c == '\r' || c == '\x0b' || c == '\x0c'

/-- Python `str.strip()`: drop whitespace from both ends. -/
def pyStrip (s : String) : String :=
  String.mk (((s.data.dropWhile pyIsSpace).reverse.dropWhile pyIsSpace).reverse)

/-- Python `str.upper()` (ASCII part). -/
def pyUpper (s : String) : String :=
  String.mk (s.data.map Char.toUpper)

/-- Python `s.startswith(p)`. -/
def startswith (s p : String) : Bool :=
  p.data.isPrefixOf s.data

/-- Python dict lookup `d[k]`-style search: first entry with the key
(a runtime dict has unique keys, so "first" is exact). -/
def pyGetD? : PyDict → String → Option JVal
  | [], _ => none
  | (k, v) :: rest, key => if k = key then some v else pyGetD? rest key

/-- Python `d.get(k, default)` on a dict. -/
def pyGetD (d : PyDict) (k : String) (dflt : JVal) : JVal :=
  (pyGetD? d k).getD dflt

/-- The dynamic errors the engine's code can raise. -/
inductive PyErr where
  | attributeError   -- `.get` on a value that is not a dict
  | typeError        -- `int + non-number`, or iterating a non-iterable
  | keyError         -- `d[k]` with `k` absent
  deriving Repr, DecidableEq

/-- Python `v.get(k, default)` on an arbitrary value: only dicts have
`.get`; anything else raises `AttributeError`. -/
def jGet : JVal → String → JVal → Except PyErr JVal
  | .obj fs, k, dflt => .ok (pyGetD fs k dflt)
  | _, _, _ => .error .attributeError

/-- Python `for x in v`: lists yield their elements, strings yield their
characters (as one-character strings), dicts yield their keys; `None`,
booleans and numbers are not iterable (`TypeError`). -/
def pyIter : JVal → Except PyErr (List JVal)
  | .arr xs => .ok xs
  | .str s => .ok (s.data.map (fun c => JVal.str (String.singleton c)))
  | .obj fs => .ok (fs.map (fun kv => JVal.str kv.1))
  | _ => .error .typeError

/-- Python `n + v` with `n : int`: numbers add, booleans coerce to 0/1,
everything else raises `TypeError`. -/
def pyAddInt (n : Int) : JVal → Except PyErr Int
  | .int m => .ok (n + m)
  | .bool b => .ok (n + if b then 1 else 0)
  | _ => .error .typeError

/-- The per-key counter `{'expected': ..., 'received': ...}`. -/
structure Counter where
  expected : Int
  received : Int
  deriving Repr, DecidableEq

/-- The `expected_items` dict: insertion-ordered association list from
(normalized description, normalized size) keys to counters. -/
abbrev Items := List ((String × String) × Counter)

/-- Lookup in `expected_items` (`expected_items[key]` / `key in expected_items`). -/
def lookupC : Items → String × String → Option Counter
  | [], _ => none
  | (k, c) :: rest, key => if k = key then some c else lookupC rest key

/-- `if key not in expected_items: expected_items[key] = {'expected': 0, 'received': 0}`. -/
def ensureKey (items : Items) (key : String × String) : Items :=
  match lookupC items key with
  | some _ => items
  | none => items ++ [(key, ⟨0, 0⟩)]

/-- `expected_items[key]['expected'] += q` — mutate the entry in place;
raises `KeyError` if the key is absent, `TypeError` if `q` is not numeric. -/
def bumpExpected : Items → String × String → JVal → Except PyErr Items
  | [], _, _ => .error .keyError
  | (k, c) :: rest, key, q =>
    if k = key then
      match pyAddInt c.expected q with
      | .error e => .error e
      | .ok e => .ok ((k, { c with expected := e }) :: rest)
    else
      match bumpExpected rest key q with
      | .error e => .error e
      | .ok rest2 => .ok ((k, c) :: rest2)

/-- One iteration of the challan-line loop of `run_reconciliation`
(`src/app.py` lines 123–130): compute the normalized key from
`material_description` and `size`, initialize the counter on first
encounter, and accumulate `qty_units_expected`. -/
def addLine (items : Items) (line : JVal) : Except PyErr Items := do
  let descV ← jGet line "material_description" (.str "")
  let sizeV ← jGet line "size" (.str "")
  let key := (pyStrip (pyStr descV), pyUpper (pyStrip (pyStr sizeV)))
  let items1 := ensureKey items key
  let qV ← jGet line "qty_units_expected" (.int 0)
  bumpExpected items1 key qV

/-- The challan-line loop over an already-extracted list of lines. -/
def buildIndexList (ls : List JVal) : Except PyErr Items :=
  ls.foldlM addLine []

/-- The whole index-building phase: iterate whatever
`challan_data.get('lines', [])` returned and fold the line loop over it. -/
def buildExpectedIndex (linesVal : JVal) : Except PyErr Items := do
  let ls ← pyIter linesVal
  buildIndexList ls

/-- `str(sticker.get('style', '')).strip()`. -/
def normStyle (st : PyDict) : String :=
  pyStrip (pyStr (pyGetD st "style" (.str "")))

/-- `str(sticker.get('code_size', '')).strip().upper()`. -/
def normSize (st : PyDict) : String :=
  pyUpper (pyStrip (pyStr (pyGetD st "code_size" (.str ""))))

/-- The match condition of the inner loop (`src/app.py` line 143):
`challan_desc.startswith(sticker_style) and challan_size == sticker_size`. -/
def keyMatch (sty sz : String) (key : String × String) : Bool :=
  startswith key.1 sty && key.2 == sz

/-- The inner loop over `expected_items.keys()` for one sticker
(`src/app.py` lines 138–146): scan keys in insertion order, increment
`received` of the first matching key and stop; report whether a match
was found. -/
def matchOne : Items → String → String → Items × Bool
  | [], _, _ => ([], false)
  | (k, c) :: rest, sty, sz =>
    if keyMatch sty sz k then
      ((k, { c with received := c.received + 1 }) :: rest, true)
    else
      let r := matchOne rest sty sz
      ((k, c) :: r.1, r.2)

/-- One iteration of the sticker loop (`src/app.py` lines 134–149):
normalize the sticker's fields, run the inner matching loop, and append
the sticker to `unmatched_stickers` when no key matched. -/
def stepSticker (acc : Items × List PyDict) (st : PyDict) : Items × List PyDict :=
  let r := matchOne acc.1 (normStyle st) (normSize st)
  (r.1, if r.2 then acc.2 else acc.2 ++ [st])

/-- The sticker loop: fold `stepSticker` over the scanned stickers with an
initially empty `unmatched_stickers` list. -/
def processStickers (items : Items) (stickers : List PyDict) :
    Items × List PyDict :=
  stickers.foldl stepSticker (items, [])

/-- One row of `report_data` (the columns of the returned DataFrame). -/
structure Row where
  challanDescription : String
  size : JVal        -- raw in unmatched rows (no str() in the source), string otherwise
  expected : Int
  received : Int
  variance : Int
  status : String
  deriving Repr

/-- The row emitted for an indexed key (`src/app.py` lines 152–162):
`variance = received - expected`, status by the sign of the variance. -/
def indexRow (kc : (String × String) × Counter) : Row :=
  let variance := kc.2.received - kc.2.expected
  { challanDescription := kc.1.1
    size := .str kc.1.2
    expected := kc.2.expected
    received := kc.2.received
    variance := variance
    status := if variance = 0 then "✅ MATCH"
              else if variance < 0 then "⚠️ SHORT" else "❗️ OVER" }

/-- The row emitted for an unmatched sticker (`src/app.py` lines 164–172):
the description is the f-string `(UNMATCHED SCAN) {style}` (so `str()` is
applied to the raw style), the size is the raw `code_size` value. -/
def unmatchedRow (st : PyDict) : Row :=
  { challanDescription := "(UNMATCHED SCAN) " ++ pyStr (pyGetD st "style" (.str ""))
    size := pyGetD st "code_size" (.str "")
    expected := 0
    received := 1
    variance := 1
    status := "❗️ OVER" }

/-- The report-building phase (`src/app.py` lines 151–172): append one row
per indexed key in insertion order, then one row per unmatched sticker in
scan order, into the single `report_data` list. -/
def buildReport (items : Items) (um : List PyDict) : List Row :=
  um.foldl (fun acc st => acc ++ [unmatchedRow st])
    (items.foldl (fun acc kc => acc ++ [indexRow kc]) [])

/-!
## Derived notions used to state the claims

These are not part of the engine; they name, in directly-readable form,
the quantities the claims talk about (first-match index, per-key quantity
sums, first-seen key order), to be compared with the engine's behavior.
-/

/-- Index of the first element satisfying `p`. -/
def firstIdx? {α : Type} (p : α → Bool) : List α → Option Nat
  | [] => none
  | a :: l => if p a then some 0 else (firstIdx? p l).map (· + 1)

/-- Increment the `received` counter of the entry at position `i`. -/
def incAt : Items → Nat → Items
  | [], _ => []
  | (k, c) :: rest, 0 => (k, { c with received := c.received + 1 }) :: rest
  | kc :: rest, n + 1 => kc :: incAt rest n

/-- Index (in `expected_items` key order) of the first key a sticker's
normalized style/size matches. -/
def hitIdx (st : PyDict) (keys : List (String × String)) : Option Nat :=
  firstIdx? (fun k => keyMatch (normStyle st) (normSize st) k) keys

/-- The normalized (description, size) key a challan line buckets into
(`("", "")` for a non-dict line, which the engine in fact rejects). -/
def lineKey : JVal → String × String
  | .obj d => (pyStrip (pyStr (pyGetD d "material_description" (.str ""))),
               pyUpper (pyStrip (pyStr (pyGetD d "size" (.str "")))))
  | _ => ("", "")

/-- The integer a JSON value contributes when added to an `int`
(booleans coerce to 0/1); non-numeric values — on which the engine's
`+=` would raise — contribute 0 here. -/
def qtyToInt : JVal → Int
  | .int n => n
  | .bool b => if b then 1 else 0
  | _ => 0

/-- The quantity a challan line contributes: its `qty_units_expected`
value, a missing field contributing 0. -/
def qtyVal : JVal → Int
  | .obj d => qtyToInt (pyGetD d "qty_units_expected" (.int 0))
  | _ => 0

/-- Sum of the quantities of the lines that bucket into key `k`. -/
def sumQtyFor (k : String × String) (ls : List JVal) : Int :=
  ((ls.filter (fun l => lineKey l = k)).map qtyVal).sum

/-- Append a key if it is not present yet (first-seen order). -/
def insKey (ks : List (String × String)) (k : String × String) :
    List (String × String) :=
  if k ∈ ks then ks else ks ++ [k]

/-- The distinct elements of a list in first-encountered order. -/
def firstSeen (ks : List (String × String)) : List (String × String) :=
  ks.foldl insKey []

/-- Overwrite the `expected` field of the first entry with key `key`. -/
def updFirst : Items → String × String → Int → Items
  | [], _, _ => []
  | (k, c) :: rest, key, e =>
    if k = key then (k, { c with expected := e }) :: rest
    else (k, c) :: updFirst rest key e

/-- Total of the `received` counters of an index. -/
def sumReceived (items : Items) : Int :=
  (items.map (fun kc => kc.2.received)).sum

/-- A JSON value the engine's `int + v` accepts. -/
def qtyOkB : JVal → Bool
  | .int _ => true
  | .bool _ => true
  | _ => false

/-- A challan line the engine processes without raising: a dict whose
`qty_units_expected`, when present, is numeric. -/
def lineOk : JVal → Bool
  | .obj d =>
    match pyGetD? d "qty_units_expected" with
    | some v => qtyOkB v
    | none => true
  | _ => false

/-!
Concrete records (extractor-shaped data) used to instantiate the claims
on explicit inputs.
-/

/-- A well-formed challan line: description "Alpha", size "M", quantity 5. -/
def wlineA : JVal :=
  .obj [("material_description", .str "Alpha"), ("size", .str "M"),
        ("qty_units_expected", .int 5)]

/-- A second line with the same (description, size) key and quantity 3. -/
def wlineB : JVal :=
  .obj [("material_description", .str "Alpha"), ("size", .str "M"),
        ("qty_units_expected", .int 3)]

/-- A line with every field missing. -/
def emptyLine : JVal := .obj []

/-- A challan whose lines are a well-formed line and an all-defaults line. -/
def goodChallan : PyDict :=
  [("challan_number", .null), ("lines", .arr [wlineA, emptyLine])]

/-- A challan whose single line carries a non-numeric quantity. -/
def badChallan : PyDict :=
  [("lines", .arr [.obj [("qty_units_expected", .str "seven")]])]

/-- A challan with one line: "Alpha" / "M", quantity 2. -/
def simpleChallan : PyDict :=
  [("lines", .arr [.obj [("material_description", .str "Alpha"),
                         ("size", .str "M"), ("qty_units_expected", .int 2)]])]

/-- A sticker matching the "Alpha" / "M" line (size needing normalization). -/
def stickA : PyDict := [("style", .str "Alpha"), ("code_size", .str " m ")]

/-- A sticker matching no line of the challans above. -/
def stickB : PyDict := [("style", .str "Zeta"), ("code_size", .str "S")]

/-- The possible outcomes of `run_reconciliation`: the early `return None`
(after the "no challan" warning), an uncaught Python exception, or the
report (the returned DataFrame's rows). -/
inductive RecResult where
  | noChallan
  | error (e : PyErr)
  | report (rows : List Row)
  deriving Repr

/-- `run_reconciliation` (`src/app.py` lines 116–174) as a function of the
session state it reads: the challan dict and the scanned-sticker list. -/
def run_reconciliation (challan : PyDict) (stickers : List PyDict) : RecResult :=
  if challan.isEmpty || (pyGetD? challan "lines").isNone then
    .noChallan
  else
    match buildExpectedIndex (pyGetD challan "lines" (.arr [])) with
    | .error e => .error e
    | .ok items =>
      let r := processStickers items stickers
      .report (buildReport r.1 r.2)

/-! ## Helper lemmas -/

theorem firstIdx?_map {α β : Type} (f : α → β) (p : β → Bool) (l : List α) :
    firstIdx? p (l.map f) = firstIdx? (fun a => p (f a)) l := by
  induction l with
  | nil => rfl
  | cons a l ih => simp only [List.map_cons, firstIdx?, ih]

theorem firstIdx?_eq_none_iff {α : Type} (p : α → Bool) (l : List α) :
    firstIdx? p l = none ↔ ∀ a ∈ l, p a = false := by
  induction l with
  | nil => simp [firstIdx?]
  | cons a l ih =>
    by_cases h : p a = true
    · simp [firstIdx?, h]
    · simp only [Bool.not_eq_true] at h
      simp [firstIdx?, h, ih]

theorem incAt_map_fst (items : Items) (i : Nat) :
    (incAt items i).map Prod.fst = items.map Prod.fst := by
  induction items generalizing i with
  | nil => rfl
  | cons kc rest ih =>
    obtain ⟨k, c⟩ := kc
    cases i with
    | zero => rfl
    | succ n => simp [incAt, ih]

theorem incAt_getElem? (items : Items) (i j : Nat) :
    (incAt items i)[j]? = (items[j]?).map
      (fun kc => if j = i then (kc.1, { kc.2 with received := kc.2.received + 1 }) else kc) := by
  induction items generalizing i j with
  | nil => simp [incAt]
  | cons kc rest ih =>
    obtain ⟨k, c⟩ := kc
    cases i with
    | zero =>
      cases j with
      | zero => simp [incAt]
      | succ m =>
        simp only [incAt, List.getElem?_cons_succ]
        cases rest[m]? <;> simp
    | succ n =>
      cases j with
      | zero => simp [incAt]
      | succ m =>
        simp only [incAt, List.getElem?_cons_succ, ih rest.length n]
        rw [ih n m]
        cases rest[m]? <;> simp [Nat.succ_inj]

theorem matchOne_spec (items : Items) (sty sz : String) :
    matchOne items sty sz =
      match firstIdx? (fun kc => keyMatch sty sz kc.1) items with
      | some i => (incAt items i, true)
      | none => (items, false) := by
  induction items with
  | nil => rfl
  | cons kc rest ih =>
    obtain ⟨k, c⟩ := kc
    by_cases h : keyMatch sty sz k = true
    · simp [matchOne, firstIdx?, h, incAt]
    · simp only [Bool.not_eq_true] at h
      simp only [matchOne, firstIdx?, h, Bool.false_eq_true, if_neg, ih]
      cases hf : firstIdx? (fun kc => keyMatch sty sz kc.1) rest <;>
        simp [hf, incAt]

theorem stepSticker_eq (acc : Items × List PyDict) (st : PyDict) :
    stepSticker acc st =
      match hitIdx st (acc.1.map Prod.fst) with
      | some i => (incAt acc.1 i, acc.2)
      | none => (acc.1, acc.2 ++ [st]) := by
  simp only [stepSticker, matchOne_spec, hitIdx, firstIdx?_map]
  cases hf : firstIdx? (fun kc => keyMatch (normStyle st) (normSize st) kc.1) acc.1 <;>
    simp [hf]

theorem stickerLoop_spec (ss : List PyDict) (acc : Items × List PyDict) :
    ((ss.foldl stepSticker acc).1.map Prod.fst = acc.1.map Prod.fst) ∧
    ((ss.foldl stepSticker acc).2 =
      acc.2 ++ ss.filter (fun st => (hitIdx st (acc.1.map Prod.fst)).isNone)) ∧
    (∀ j : Nat, (ss.foldl stepSticker acc).1[j]? = (acc.1[j]?).map
      (fun kc : (String × String) × Counter => (kc.1, { kc.2 with received := kc.2.received +
        (ss.countP (fun st => decide (hitIdx st (acc.1.map Prod.fst) = some j)) : Int) }))) := by
  induction ss generalizing acc with
  | nil =>
    refine ⟨rfl, by simp, fun j => ?_⟩
    rw [List.foldl_nil]
    cases h : acc.1[j]? with
    | none => rfl
    | some kc =>
      obtain ⟨k, c⟩ := kc
      simp only [List.countP_nil, Nat.cast_zero, add_zero, Option.map_some']
  | cons st ss ih =>
    rw [List.foldl_cons]
    cases hfm : hitIdx st (acc.1.map Prod.fst) with
    | some i =>
      have hstep : stepSticker acc st = (incAt acc.1 i, acc.2) := by
        rw [stepSticker_eq, hfm]
      rw [hstep]
      obtain ⟨ih1, ih2, ih3⟩ := ih (incAt acc.1 i, acc.2)
      have hkeys : (incAt acc.1 i).map Prod.fst = acc.1.map Prod.fst :=
        incAt_map_fst _ _
      simp only [hkeys] at ih1 ih2 ih3
      refine ⟨ih1, ?_, fun j => ?_⟩
      · rw [ih2, List.filter_cons]
        simp [hfm]
      · rw [ih3 j, incAt_getElem?]
        cases h : acc.1[j]? with
        | none => rfl
        | some kc =>
          obtain ⟨k, c⟩ := kc
          obtain ⟨e, r⟩ := c
          by_cases hj : j = i
          · subst hj
            have hc : decide (hitIdx st (acc.1.map Prod.fst) = some j) = true := by
              rw [hfm]
              exact decide_eq_true rfl
            simp only [Option.map_some', if_pos rfl, List.countP_cons, hc, if_true,
              Option.some.injEq, Prod.mk.injEq, Counter.mk.injEq, true_and, and_true]
            push_cast
            ring
          · have hc : decide (hitIdx st (acc.1.map Prod.fst) = some j) = false := by
              rw [hfm]
              exact decide_eq_false (fun h2 => hj (Option.some.inj h2).symm)
            simp only [Option.map_some', if_neg hj, List.countP_cons, hc,
              Bool.false_eq_true, if_false, Nat.add_zero]
    | none =>
      have hstep : stepSticker acc st = (acc.1, acc.2 ++ [st]) := by
        rw [stepSticker_eq, hfm]
      rw [hstep]
      obtain ⟨ih1, ih2, ih3⟩ := ih (acc.1, acc.2 ++ [st])
      refine ⟨ih1, ?_, fun j => ?_⟩
      · rw [ih2, List.filter_cons]
        simp [hfm]
      · rw [ih3 j]
        cases h : acc.1[j]? with
        | none => rfl
        | some kc =>
          obtain ⟨k, c⟩ := kc
          obtain ⟨e, r⟩ := c
          have hc : decide (hitIdx st (acc.1.map Prod.fst) = some j) = false := by
            rw [hfm]
            exact decide_eq_false (fun h2 => Option.noConfusion h2)
          simp only [Option.map_some', List.countP_cons, hc,
            Bool.false_eq_true, if_false, Nat.add_zero]

theorem foldl_append_map {α β : Type} (f : α → β) (l : List α) (init : List β) :
    l.foldl (fun acc x => acc ++ [f x]) init = init ++ l.map f := by
  induction l generalizing init with
  | nil => simp
  | cons a l ih => rw [List.foldl_cons, ih]; simp

theorem buildReport_eq (items : Items) (um : List PyDict) :
    buildReport items um = items.map indexRow ++ um.map unmatchedRow := by
  rw [buildReport, foldl_append_map, foldl_append_map]
  simp

/-! ## Claim theorems -/

/-- C1: stickers are processed in input order; each sticker goes to the
first key (in the index's first-seen order) whose description has the
sticker's trimmed style as a case-sensitive prefix and whose size equals
the trimmed-and-uppercased `code_size`; a match increments exactly that
key's `received` by 1 and stops the scan, so every sticker contributes at
most one unit to at most one key (conjunct 4 counts, per key, exactly the
stickers whose first match is that key); a sticker matching no key is
appended to the unmatched list in input order (conjunct 2: the unmatched
list is the input-order sublist of stickers with no matching key). -/
theorem claim_C1 (items : Items) (stickers : List PyDict) (sty sz : String) :
    (matchOne items sty sz =
      match firstIdx? (fun kc => keyMatch sty sz kc.1) items with
      | some i => (incAt items i, true)
      | none => (items, false)) ∧
    ((processStickers items stickers).2 =
      stickers.filter (fun st =>
        (firstIdx? (fun kc => keyMatch (normStyle st) (normSize st) kc.1) items).isNone)) ∧
    ((processStickers items stickers).1.map Prod.fst = items.map Prod.fst) ∧
    (∀ j : Nat, (processStickers items stickers).1[j]? = (items[j]?).map
      (fun kc : (String × String) × Counter =>
        (kc.1, { kc.2 with received := kc.2.received +
          (stickers.countP (fun st => decide
            (firstIdx? (fun kc2 => keyMatch (normStyle st) (normSize st) kc2.1) items
              = some j)) : Int) }))) := by
  obtain ⟨h1, h2, h3⟩ := stickerLoop_spec stickers (items, [])
  have hid : ∀ st : PyDict, hitIdx st (items.map Prod.fst) =
      firstIdx? (fun kc => keyMatch (normStyle st) (normSize st) kc.1) items := by
    intro st
    rw [hitIdx, firstIdx?_map]
  refine ⟨matchOne_spec items sty sz, ?_, h1, fun j => ?_⟩
  · rw [processStickers, h2]
    simp only [hid, List.nil_append]
  · rw [processStickers, h3 j]
    simp only [hid]

/-- C3: the report is the indexed-key rows, one per index entry, in index
(first-seen) order, followed by the unmatched rows; every key row has
`Variance = Received - Expected` and its status is MATCH when the variance
is 0, SHORT when negative, OVER when positive (the engine renders the status
tags with decorative symbols). -/
theorem claim_C3 (items : Items) (um : List PyDict) :
    (buildReport items um = items.map indexRow ++ um.map unmatchedRow) ∧
    (∀ kc : (String × String) × Counter,
      (indexRow kc).variance = kc.2.received - kc.2.expected ∧
      (indexRow kc).received = kc.2.received ∧
      (indexRow kc).expected = kc.2.expected ∧
      (indexRow kc).status =
        (if kc.2.received - kc.2.expected = 0 then "✅ MATCH"
         else if kc.2.received - kc.2.expected < 0 then "⚠️ SHORT" else "❗️ OVER")) := by
  refine ⟨buildReport_eq items um, fun kc => ⟨rfl, rfl, rfl, rfl⟩⟩

/-- C4: each unmatched sticker yields exactly one row, the unmatched rows
sit after all indexed-key rows in original scan order, each has
Expected 0, Received 1, Variance 1, status OVER, the unmatched marker plus
the sticker's style as description and the sticker's raw `code_size` as
size; and a sticker that matches no key leaves every `received` counter
unchanged (the matching pass returns the index untouched for it). -/
theorem claim_C4 (items : Items) (um : List PyDict) (st : PyDict) :
    ((buildReport items um).drop items.length = um.map unmatchedRow) ∧
    (unmatchedRow st =
      { challanDescription := "(UNMATCHED SCAN) " ++ pyStr (pyGetD st "style" (.str ""))
        size := pyGetD st "code_size" (.str "")
        expected := 0
        received := 1
        variance := 1
        status := "❗️ OVER" }) ∧
    ((∀ kc ∈ items, keyMatch (normStyle st) (normSize st) kc.1 = false) →
      matchOne items (normStyle st) (normSize st) = (items, false)) := by
  refine ⟨?_, rfl, fun hall => ?_⟩
  · rw [buildReport_eq]
    have hlen : items.length = (items.map indexRow).length := (List.length_map _ _).symm
    rw [hlen, List.drop_left]
  · rw [matchOne_spec]
    have hnone : firstIdx? (fun kc => keyMatch (normStyle st) (normSize st) kc.1) items
        = none := by
      rw [firstIdx?_eq_none_iff]
      exact fun kc hkc => hall kc hkc
    rw [hnone]

/-- C5: the engine bails out with its no-challan outcome exactly when the
challan dict is empty or has no `lines` key, whatever the stickers are;
in that case no index is built and no report is produced (the outcome is
the `noChallan` constructor, not a report). -/
theorem claim_C5 (challan : PyDict) (stickers : List PyDict) :
    run_reconciliation challan stickers = .noChallan ↔
      (challan = [] ∨ pyGetD? challan "lines" = none) := by
  by_cases hc : (challan.isEmpty || (pyGetD? challan "lines").isNone) = true
  · rw [run_reconciliation, if_pos hc]
    simp only [Bool.or_eq_true, List.isEmpty_iff, Option.isNone_iff_eq_none] at hc
    exact iff_of_true rfl hc
  · rw [run_reconciliation, if_neg hc]
    simp only [Bool.or_eq_true, List.isEmpty_iff, Option.isNone_iff_eq_none] at hc
    push_neg at hc
    refine iff_of_false ?_ (by rintro (h1 | h2); exacts [hc.1 h1, hc.2 h2])
    cases hb : buildExpectedIndex (pyGetD challan "lines" (.arr [])) with
    | error e => simp [hb]
    | ok items => simp [hb]

theorem run_report_rows (challan : PyDict) (stickers : List PyDict) (rows : List Row)
    (items : Items)
    (hr : run_reconciliation challan stickers = .report rows)
    (hb : buildExpectedIndex (pyGetD challan "lines" (.arr [])) = .ok items) :
    rows = buildReport (processStickers items stickers).1
      (processStickers items stickers).2 := by
  rw [run_reconciliation] at hr
  by_cases hc : (challan.isEmpty || (pyGetD? challan "lines").isNone) = true
  · rw [if_pos hc] at hr
    exact absurd hr (by simp)
  · rw [if_neg hc, hb] at hr
    simp only [RecResult.report.injEq] at hr
    exact hr.symm

/-- C8: reconciliation is deterministic — two runs on the same challan and
sticker sequence give the same outcome — and a produced report's rows are
exactly the indexed-key rows in first-seen challan order followed by the
unmatched-sticker rows in scan order. -/
theorem claim_C8 (challan : PyDict) (stickers : List PyDict) (r₁ r₂ : RecResult)
    (h₁ : run_reconciliation challan stickers = r₁)
    (h₂ : run_reconciliation challan stickers = r₂) :
    r₁ = r₂ ∧
    (∀ (rows : List Row) (items : Items), r₁ = .report rows →
      buildExpectedIndex (pyGetD challan "lines" (.arr [])) = .ok items →
      rows = (processStickers items stickers).1.map indexRow ++
        (processStickers items stickers).2.map unmatchedRow) := by
  refine ⟨h₁.symm.trans h₂, fun rows items hrep hb => ?_⟩
  rw [run_report_rows challan stickers rows items (h₁.trans hrep) hb, buildReport_eq]

theorem matchOne_sumReceived (items : Items) (sty sz : String) :
    sumReceived (matchOne items sty sz).1 =
      sumReceived items + (if (matchOne items sty sz).2 then 1 else 0) := by
  induction items with
  | nil => simp [matchOne, sumReceived]
  | cons kc rest ih =>
    obtain ⟨k, c⟩ := kc
    by_cases h : keyMatch sty sz k = true
    · simp [matchOne, h, sumReceived]
      ring
    · simp only [Bool.not_eq_true] at h
      have hm : matchOne ((k, c) :: rest) sty sz
          = ((k, c) :: (matchOne rest sty sz).1, (matchOne rest sty sz).2) := by
        simp [matchOne, h]
      rw [hm]
      simp only [sumReceived, List.map_cons, List.sum_cons] at ih ⊢
      rw [ih]
      by_cases hf : (matchOne rest sty sz).2 = true
      · simp only [hf, if_true]
        ring
      · simp only [Bool.not_eq_true] at hf
        simp only [hf, Bool.false_eq_true, if_false]
        ring

theorem stickerLoop_sum (ss : List PyDict) (acc : Items × List PyDict) :
    sumReceived (ss.foldl stepSticker acc).1 + ((ss.foldl stepSticker acc).2.length : Int)
      = sumReceived acc.1 + (acc.2.length : Int) + (ss.length : Int) := by
  induction ss generalizing acc with
  | nil => simp
  | cons st ss ih =>
    rw [List.foldl_cons, ih (stepSticker acc st)]
    have hstep : sumReceived (stepSticker acc st).1 + ((stepSticker acc st).2.length : Int)
        = sumReceived acc.1 + (acc.2.length : Int) + 1 := by
      have hsum := matchOne_sumReceived acc.1 (normStyle st) (normSize st)
      rw [stepSticker]
      by_cases hf : (matchOne acc.1 (normStyle st) (normSize st)).2 = true
      · rw [hf] at hsum
        simp only [if_true] at hsum
        simp only [hf, eq_self_iff_true, if_true]
        rw [hsum]
        ring
      · simp only [Bool.not_eq_true] at hf
        rw [hf] at hsum
        simp only [Bool.false_eq_true, if_false, add_zero] at hsum
        simp only [hf, Bool.false_eq_true, if_false]
        rw [hsum]
        simp only [List.length_append, List.length_cons, List.length_nil]
        push_cast
        ring
    rw [hstep]
    simp only [List.length_cons]
    push_cast
    ring

theorem lookupC_append (xs ys : Items) (k : String × String) :
    lookupC (xs ++ ys) k =
      match lookupC xs k with
      | some c => some c
      | none => lookupC ys k := by
  induction xs with
  | nil => rfl
  | cons kc rest ih =>
    obtain ⟨k0, c0⟩ := kc
    by_cases h : k0 = k
    · simp [lookupC, h]
    · simp [lookupC, h, ih]

theorem lookupC_eq_none_iff (items : Items) (k : String × String) :
    lookupC items k = none ↔ k ∉ items.map Prod.fst := by
  induction items with
  | nil => simp [lookupC]
  | cons kc rest ih =>
    obtain ⟨k0, c0⟩ := kc
    by_cases h : k0 = k
    · simp [lookupC, h]
    · simp [lookupC, h, ih, Ne.symm h]

theorem ensureKey_lookup_self (items : Items) (key : String × String) :
    lookupC (ensureKey items key) key = some ((lookupC items key).getD ⟨0, 0⟩) := by
  rw [ensureKey]
  cases h : lookupC items key with
  | some c => simp [h]
  | none => simp [lookupC_append, h, lookupC]

theorem ensureKey_lookup_ne (items : Items) (key k : String × String) (hk : k ≠ key) :
    lookupC (ensureKey items key) k = lookupC items k := by
  rw [ensureKey]
  cases h : lookupC items key with
  | some c => rfl
  | none =>
    rw [lookupC_append]
    cases h2 : lookupC items k with
    | some c => rfl
    | none => simp [lookupC, Ne.symm hk]

theorem ensureKey_map_fst (items : Items) (key : String × String) :
    (ensureKey items key).map Prod.fst = insKey (items.map Prod.fst) key := by
  rw [ensureKey, insKey]
  cases h : lookupC items key with
  | some c =>
    have : key ∈ items.map Prod.fst := by
      by_contra hmem
      rw [← lookupC_eq_none_iff] at hmem
      rw [h] at hmem
      exact Option.noConfusion hmem
    rw [if_pos this]
  | none =>
    rw [lookupC_eq_none_iff] at h
    rw [if_neg h]
    simp

theorem updFirst_map_fst (items : Items) (key : String × String) (e : Int) :
    (updFirst items key e).map Prod.fst = items.map Prod.fst := by
  induction items with
  | nil => rfl
  | cons kc rest ih =>
    obtain ⟨k0, c0⟩ := kc
    by_cases h : k0 = key
    · simp [updFirst, h]
    · simp [updFirst, h, ih]

theorem updFirst_lookup_self (items : Items) (key : String × String) (e : Int)
    (c : Counter) (h : lookupC items key = some c) :
    lookupC (updFirst items key e) key = some { c with expected := e } := by
  induction items with
  | nil => exact Option.noConfusion h
  | cons kc rest ih =>
    obtain ⟨k0, c0⟩ := kc
    by_cases hk : k0 = key
    · rw [lookupC, if_pos hk] at h
      rw [updFirst, if_pos hk, lookupC, if_pos hk, Option.some.inj h]
    · rw [lookupC, if_neg hk] at h
      rw [updFirst, if_neg hk, lookupC, if_neg hk]
      exact ih h

theorem updFirst_lookup_ne (items : Items) (key k : String × String) (e : Int)
    (hk : k ≠ key) :
    lookupC (updFirst items key e) k = lookupC items k := by
  induction items with
  | nil => rfl
  | cons kc rest ih =>
    obtain ⟨k0, c0⟩ := kc
    by_cases h : k0 = key
    · subst h
      rw [updFirst, if_pos rfl, lookupC, lookupC, if_neg (Ne.symm hk), if_neg (Ne.symm hk)]
    · rw [updFirst, if_neg h, lookupC, lookupC]
      by_cases h2 : k0 = k
      · rw [if_pos h2, if_pos h2]
      · rw [if_neg h2, if_neg h2]
        exact ih

theorem pyAddInt_ok (n m : Int) (v : JVal) (h : pyAddInt n v = .ok m) :
    m = n + qtyToInt v := by
  cases v <;> simp [pyAddInt, qtyToInt] at h ⊢ <;> omega

theorem bumpExpected_none (items : Items) (key : String × String) (q : JVal)
    (h : lookupC items key = none) :
    bumpExpected items key q = .error .keyError := by
  induction items with
  | nil => rfl
  | cons kc rest ih =>
    obtain ⟨k0, c0⟩ := kc
    by_cases hk : k0 = key
    · rw [lookupC, if_pos hk] at h
      exact Option.noConfusion h
    · rw [lookupC, if_neg hk] at h
      rw [bumpExpected, if_neg hk, ih h]

theorem bumpExpected_some (items : Items) (key : String × String) (q : JVal)
    (c : Counter) (h : lookupC items key = some c) :
    bumpExpected items key q =
      (pyAddInt c.expected q).map (fun e => updFirst items key e) := by
  induction items with
  | nil => exact Option.noConfusion h
  | cons kc rest ih =>
    obtain ⟨k0, c0⟩ := kc
    by_cases hk : k0 = key
    · subst hk
      rw [lookupC, if_pos rfl] at h
      obtain rfl := Option.some.inj h
      cases hadd : pyAddInt c0.expected q with
      | error e => simp [bumpExpected, hadd, Except.map]
      | ok e => simp [bumpExpected, hadd, Except.map, updFirst]
    · rw [lookupC, if_neg hk] at h
      rw [bumpExpected, if_neg hk, ih h]
      cases hadd : pyAddInt c.expected q with
      | error e2 => simp [Except.map]
      | ok e2 => simp [Except.map, updFirst, if_neg hk]

theorem addLine_obj (items : Items) (d : PyDict) :
    addLine items (.obj d) =
      bumpExpected (ensureKey items (lineKey (.obj d))) (lineKey (.obj d))
        (pyGetD d "qty_units_expected" (.int 0)) := rfl

theorem addLine_ok_spec (items acc1 : Items) (l : JVal)
    (h : addLine items l = .ok acc1) :
    ∃ d : PyDict, l = .obj d ∧
      acc1 = updFirst (ensureKey items (lineKey l)) (lineKey l)
        (((lookupC items (lineKey l)).getD ⟨0, 0⟩).expected + qtyVal l) := by
  cases l with
  | obj d =>
    refine ⟨d, rfl, ?_⟩
    rw [addLine_obj] at h
    have hlook := ensureKey_lookup_self items (lineKey (.obj d))
    rw [bumpExpected_some _ _ _ _ hlook] at h
    cases hadd : pyAddInt ((lookupC items (lineKey (.obj d))).getD ⟨0, 0⟩).expected
        (pyGetD d "qty_units_expected" (.int 0)) with
    | error e =>
      rw [hadd] at h
      exact Except.noConfusion h
    | ok e =>
      rw [hadd] at h
      have he := pyAddInt_ok _ _ _ hadd
      have : updFirst (ensureKey items (lineKey (.obj d))) (lineKey (.obj d)) e = acc1 :=
        Except.ok.inj h
      rw [← this, he]
      rfl
  | null => exact Except.noConfusion h
  | bool b => exact Except.noConfusion h
  | int n => exact Except.noConfusion h
  | str s => exact Except.noConfusion h
  | arr xs => exact Except.noConfusion h

theorem sumQtyFor_cons_self (k : String × String) (l : JVal) (ls : List JVal)
    (h : lineKey l = k) :
    sumQtyFor k (l :: ls) = qtyVal l + sumQtyFor k ls := by
  simp [sumQtyFor, List.filter_cons, h]

theorem sumQtyFor_cons_ne (k : String × String) (l : JVal) (ls : List JVal)
    (h : ¬ lineKey l = k) :
    sumQtyFor k (l :: ls) = sumQtyFor k ls := by
  simp [sumQtyFor, List.filter_cons, h]

theorem buildGo (ls : List JVal) (acc items : Items)
    (h : ls.foldlM addLine acc = .ok items) :
    items.map Prod.fst = (ls.map lineKey).foldl insKey (acc.map Prod.fst) ∧
    ∀ k, lookupC items k =
      match lookupC acc k with
      | some c => some ⟨c.expected + sumQtyFor k ls, c.received⟩
      | none => if k ∈ ls.map lineKey then some ⟨sumQtyFor k ls, 0⟩ else none := by
  induction ls generalizing acc with
  | nil =>
    rw [List.foldlM_nil] at h
    obtain rfl := Except.ok.inj h
    refine ⟨rfl, fun k => ?_⟩
    cases hl : lookupC acc k with
    | some c =>
      simp only [hl]
      have h0 : sumQtyFor k [] = 0 := rfl
      rw [h0, add_zero]
    | none => simp only [hl, List.map_nil, List.not_mem_nil, if_false]
  | cons l ls ih =>
    rw [List.foldlM_cons] at h
    cases ha : addLine acc l with
    | error e =>
      rw [ha] at h
      exact Except.noConfusion h
    | ok acc1 =>
      rw [ha] at h
      have h2 : ls.foldlM addLine acc1 = .ok items := h
      obtain ⟨d, rfl, hacc1⟩ := addLine_ok_spec acc acc1 l ha
      obtain ⟨ih1, ih2⟩ := ih acc1 h2
      have hfst : acc1.map Prod.fst = insKey (acc.map Prod.fst) (lineKey (.obj d)) := by
        rw [hacc1, updFirst_map_fst, ensureKey_map_fst]
      constructor
      · rw [List.map_cons, List.foldl_cons, ih1, hfst]
      · intro k
        by_cases hk : k = lineKey (.obj d)
        · have hlk : lookupC acc1 k =
              some ⟨((lookupC acc k).getD ⟨0, 0⟩).expected + qtyVal (.obj d),
                ((lookupC acc k).getD ⟨0, 0⟩).received⟩ := by
            rw [hacc1, ← hk]
            exact updFirst_lookup_self _ _ _ _ (ensureKey_lookup_self acc k)
          have hx := ih2 k
          rw [hlk] at hx
          rw [hx, sumQtyFor_cons_self k (.obj d) ls hk.symm]
          cases hl : lookupC acc k with
          | some c => simp [hl, add_assoc]
          | none => simp [hl, hk]
        · have hlk : lookupC acc1 k = lookupC acc k := by
            rw [hacc1, updFirst_lookup_ne _ _ _ _ hk, ensureKey_lookup_ne _ _ _ hk]
          have hx := ih2 k
          rw [hlk] at hx
          rw [hx, sumQtyFor_cons_ne k (.obj d) ls (fun he => hk he.symm)]
          cases hl : lookupC acc k with
          | some c => simp [hl]
          | none => simp [hl, List.mem_cons, hk]

theorem insKey_nodup (ks : List (String × String)) (k : String × String)
    (h : ks.Nodup) : (insKey ks k).Nodup := by
  rw [insKey]
  by_cases hm : k ∈ ks
  · rw [if_pos hm]
    exact h
  · rw [if_neg hm]
    simp [List.nodup_append, h, hm]

theorem foldl_insKey_nodup (ks : List (String × String)) :
    ∀ acc : List (String × String), acc.Nodup → (ks.foldl insKey acc).Nodup := by
  induction ks with
  | nil => exact fun acc h => h
  | cons k ks ih =>
    intro acc h
    rw [List.foldl_cons]
    exact ih (insKey acc k) (insKey_nodup acc k h)

theorem firstSeen_nodup (ks : List (String × String)) : (firstSeen ks).Nodup :=
  foldl_insKey_nodup ks [] List.nodup_nil

theorem lookupC_of_mem (items : Items) (kc : (String × String) × Counter)
    (hnd : (items.map Prod.fst).Nodup) (hm : kc ∈ items) :
    lookupC items kc.1 = some kc.2 := by
  induction items with
  | nil => exact absurd hm (List.not_mem_nil kc)
  | cons kc0 rest ih =>
    obtain ⟨k0, c0⟩ := kc0
    rw [List.map_cons, List.nodup_cons] at hnd
    rcases List.mem_cons.mp hm with heq | hmem
    · subst heq
      rw [lookupC, if_pos rfl]
    · have hne : k0 ≠ kc.1 := by
        intro he
        apply hnd.1
        rw [he]
        exact List.mem_map.mpr ⟨kc, hmem, rfl⟩
      rw [lookupC, if_neg hne]
      exact ih hnd.2 hmem

theorem buildIndexList_spec (ls : List JVal) (items : Items)
    (h : buildIndexList ls = .ok items) :
    items.map Prod.fst = firstSeen (ls.map lineKey) ∧
    (items.map Prod.fst).Nodup ∧
    ∀ kc ∈ items, kc.2.expected = sumQtyFor kc.1 ls ∧ kc.2.received = 0 := by
  obtain ⟨h1, h2⟩ := buildGo ls [] items h
  have h2' : ∀ k, lookupC items k =
      if k ∈ ls.map lineKey then some ⟨sumQtyFor k ls, 0⟩ else none := fun k => h2 k
  have hfs : items.map Prod.fst = firstSeen (ls.map lineKey) := h1
  have hnd : (items.map Prod.fst).Nodup := hfs ▸ firstSeen_nodup _
  refine ⟨hfs, hnd, fun kc hm => ?_⟩
  have hlk := lookupC_of_mem items kc hnd hm
  rw [h2' kc.1] at hlk
  by_cases hmem : kc.1 ∈ ls.map lineKey
  · rw [if_pos hmem] at hlk
    have he := Option.some.inj hlk
    rw [← he]
    exact ⟨rfl, rfl⟩
  · rw [if_neg hmem] at hlk
    exact Option.noConfusion hlk

/-- C2: building the expected index yields one counter per distinct
normalized (description, size) key, keys listed in first-encountered
order (hence no duplicate key), with `expected` the sum of
`qty_units_expected` over the lines bucketing into that key (a missing
quantity contributing 0 via `qtyVal`) and `received` starting at 0. -/
theorem claim_C2 (ls : List JVal) (items : Items)
    (h : buildIndexList ls = .ok items) :
    items.map Prod.fst = firstSeen (ls.map lineKey) ∧
    (items.map Prod.fst).Nodup ∧
    ∀ kc ∈ items, kc.2.expected = sumQtyFor kc.1 ls ∧ kc.2.received = 0 :=
  buildIndexList_spec ls items h

theorem buildIndexList_sumReceived (ls : List JVal) (items : Items)
    (h : buildIndexList ls = .ok items) : sumReceived items = 0 := by
  obtain ⟨_, _, hall⟩ := buildIndexList_spec ls items h
  rw [sumReceived]
  apply List.sum_eq_zero
  intro x hx
  obtain ⟨kc, hkc, rfl⟩ := List.mem_map.mp hx
  exact (hall kc hkc).2

theorem sum_map_one (um : List PyDict) :
    ((um.map fun _ => (1 : Int)).sum) = (um.length : Int) := by
  induction um with
  | nil => simp
  | cons a l ih =>
    simp only [List.map_cons, List.sum_cons, ih, List.length_cons]
    push_cast
    ring

theorem buildReport_received_sum (items : Items) (um : List PyDict) :
    ((buildReport items um).map Row.received).sum
      = sumReceived items + (um.length : Int) := by
  rw [buildReport_eq]
  rw [List.map_append, List.sum_append, List.map_map, List.map_map]
  have h1 : (Row.received ∘ indexRow) =
      fun kc : (String × String) × Counter => kc.2.received := rfl
  have h2 : (Row.received ∘ unmatchedRow) = fun _ : PyDict => (1 : Int) := rfl
  rw [h1, h2, sum_map_one, sumReceived]

/-- C9: conservation of scanned units — whenever reconciliation returns a
report, the Received column sums to the number of scanned stickers: every
sticker is counted exactly once, against the key it matched or as its own
unmatched row. -/
theorem claim_C9 (challan : PyDict) (stickers : List PyDict) (rows : List Row)
    (h : run_reconciliation challan stickers = .report rows) :
    (rows.map Row.received).sum = (stickers.length : Int) := by
  rw [run_reconciliation] at h
  by_cases hc : (challan.isEmpty || (pyGetD? challan "lines").isNone) = true
  · rw [if_pos hc] at h
    exact absurd h (by simp)
  · rw [if_neg hc] at h
    cases hb : buildExpectedIndex (pyGetD challan "lines" (.arr [])) with
    | error e =>
      rw [hb] at h
      exact absurd h (by simp)
    | ok items =>
      rw [hb] at h
      simp only [RecResult.report.injEq] at h
      rw [← h, buildReport_received_sum]
      rw [buildExpectedIndex] at hb
      cases hi : pyIter (pyGetD challan "lines" (.arr [])) with
      | error e =>
        rw [hi] at hb
        exact Except.noConfusion hb
      | ok ls =>
        rw [hi] at hb
        have hbl : buildIndexList ls = .ok items := hb
        have h0 := buildIndexList_sumReceived ls items hbl
        have hloop := stickerLoop_sum stickers (items, [])
        rw [processStickers]
        rw [h0] at hloop
        simp only [List.length_nil, Nat.cast_zero, add_zero, zero_add] at hloop
        omega

theorem addLine_ok_of_lineOk (acc : Items) (l : JVal) (h : lineOk l = true) :
    ∃ acc1, addLine acc l = .ok acc1 := by
  cases l with
  | obj d =>
    rw [addLine_obj]
    rw [bumpExpected_some _ _ _ _ (ensureKey_lookup_self acc (lineKey (.obj d)))]
    have : ∃ m, pyAddInt ((lookupC acc (lineKey (.obj d))).getD ⟨0, 0⟩).expected
        (pyGetD d "qty_units_expected" (.int 0)) = .ok m := by
      rw [pyGetD]
      cases hq : pyGetD? d "qty_units_expected" with
      | none => exact ⟨_, rfl⟩
      | some v =>
        rw [lineOk, hq] at h
        cases v with
        | int n => exact ⟨_, rfl⟩
        | bool b => exact ⟨_, rfl⟩
        | null => exact absurd h (by simp [qtyOkB])
        | str s => exact absurd h (by simp [qtyOkB])
        | arr xs => exact absurd h (by simp [qtyOkB])
        | obj fs => exact absurd h (by simp [qtyOkB])
    obtain ⟨m, hm⟩ := this
    rw [hm]
    exact ⟨_, rfl⟩
  | null => exact absurd h (by simp [lineOk])
  | bool b => exact absurd h (by simp [lineOk])
  | int n => exact absurd h (by simp [lineOk])
  | str s => exact absurd h (by simp [lineOk])
  | arr xs => exact absurd h (by simp [lineOk])

theorem buildIndexList_ok_of_lineOk (ls : List JVal)
    (h : ∀ l ∈ ls, lineOk l = true) :
    ∀ acc : Items, ∃ items, ls.foldlM addLine acc = .ok items := by
  induction ls with
  | nil => exact fun acc => ⟨acc, rfl⟩
  | cons l ls ih =>
    intro acc
    obtain ⟨acc1, ha⟩ := addLine_ok_of_lineOk acc l (h l (List.mem_cons_self l ls))
    obtain ⟨items, hrest⟩ := ih (fun l2 hl2 => h l2 (List.mem_cons_of_mem l hl2)) acc1
    refine ⟨items, ?_⟩
    rw [List.foldlM_cons, ha]
    exact hrest

/-- C6 (amended): the engine succeeds and returns a report whenever, past
the no-challan guard, `lines` holds a list of dicts whose
`qty_units_expected`, when present, is numeric; a missing quantity is
treated as 0 and a missing description or size as the empty string.  (The
original claim fails: a present non-numeric quantity makes the engine
raise a Python TypeError — see the counterexample.) -/
theorem claim_C6 (challan : PyDict) (stickers : List PyDict) (ls : List JVal)
    (h1 : challan ≠ [])
    (h2 : pyGetD? challan "lines" = some (.arr ls))
    (h3 : ∀ l ∈ ls, lineOk l = true) :
    (∃ rows, run_reconciliation challan stickers = .report rows) ∧
    (∀ d : PyDict, pyGetD? d "qty_units_expected" = none → qtyVal (.obj d) = 0) ∧
    (∀ d : PyDict, pyGetD? d "material_description" = none →
      (lineKey (.obj d)).1 = "") ∧
    (∀ d : PyDict, pyGetD? d "size" = none → (lineKey (.obj d)).2 = "") := by
  refine ⟨?_, fun d hd => ?_, fun d hd => ?_, fun d hd => ?_⟩
  · have hc : ¬ ((challan.isEmpty || (pyGetD? challan "lines").isNone) = true) := by
      rw [h2]
      cases challan with
      | nil => exact absurd rfl h1
      | cons kv rest => simp
    rw [run_reconciliation, if_neg hc]
    have hbv : pyGetD challan "lines" (.arr []) = .arr ls := by
      rw [pyGetD, h2]
      rfl
    rw [hbv]
    obtain ⟨items, hok⟩ := buildIndexList_ok_of_lineOk ls h3 []
    have hbe : buildExpectedIndex (.arr ls) = .ok items := hok
    rw [hbe]
    exact ⟨_, rfl⟩
  · rw [qtyVal, pyGetD, hd]
    rfl
  · have hv : pyGetD d "material_description" (.str "") = .str "" := by
      rw [pyGetD, hd]
      rfl
    rw [lineKey, hv]
    rfl
  · have hv : pyGetD d "size" (.str "") = .str "" := by
      rw [pyGetD, hd]
      rfl
    rw [lineKey, hv]
    rfl

/-- C6 counterexample: a challan that passes the no-challan guard but whose
line carries a non-numeric (string) quantity makes the engine raise a
Python TypeError — it does not return a report, refuting "missing or
non-numeric quantities are treated as 0 ... no input ever causes the
engine to throw". -/
theorem claim_C6_counterexample :
    run_reconciliation badChallan [] = .error .typeError ∧
    ¬ ∃ rows, run_reconciliation badChallan [] = .report rows := by
  refine ⟨rfl, ?_⟩
  rintro ⟨rows, hr⟩
  have hr2 : RecResult.error PyErr.typeError = RecResult.report rows := hr
  exact RecResult.noConfusion hr2

theorem startswith_empty (s : String) : startswith s "" = true := by
  rw [startswith]
  cases hd : s.data
  · rfl
  · rfl

/-- C10: a sticker whose style is missing or trims to the empty string
matches the first key of the index whose normalized size equals the
sticker's normalized `code_size` (the empty string is a prefix of every
description); it goes unmatched exactly when no key has that size; and a
missing `style` field normalizes to the empty string. -/
theorem claim_C10 (st : PyDict) (items : Items) (h : normStyle st = "") :
    (matchOne items (normStyle st) (normSize st) =
      match firstIdx? (fun kc : (String × String) × Counter => kc.1.2 == normSize st) items with
      | some i => (incAt items i, true)
      | none => (items, false)) ∧
    ((matchOne items (normStyle st) (normSize st)).2 = false ↔
      ∀ kc ∈ items, kc.1.2 ≠ normSize st) ∧
    (∀ st2 : PyDict, pyGetD? st2 "style" = none → normStyle st2 = "") := by
  have hfun : (fun kc : (String × String) × Counter =>
      keyMatch (normStyle st) (normSize st) kc.1) =
      fun kc : (String × String) × Counter => kc.1.2 == normSize st := by
    funext kc
    rw [h, keyMatch]
    rw [startswith_empty, Bool.true_and]
  have part1 : matchOne items (normStyle st) (normSize st) =
      match firstIdx? (fun kc : (String × String) × Counter => kc.1.2 == normSize st) items with
      | some i => (incAt items i, true)
      | none => (items, false) := by
    rw [matchOne_spec, hfun]
  refine ⟨part1, ?_, fun st2 h2 => ?_⟩
  · rw [part1]
    cases hf : firstIdx? (fun kc : (String × String) × Counter => kc.1.2 == normSize st) items with
    | some i =>
      refine iff_of_false (by simp) (fun hall => ?_)
      have : firstIdx? (fun kc : (String × String) × Counter => kc.1.2 == normSize st) items
          = none := by
        rw [firstIdx?_eq_none_iff]
        intro kc hkc
        exact beq_eq_false_iff_ne.mpr (hall kc hkc)
      rw [this] at hf
      exact Option.noConfusion hf
    | none =>
      refine iff_of_true rfl (fun kc hkc => ?_)
      have := (firstIdx?_eq_none_iff _ items).mp hf kc hkc
      exact ne_of_beq_false this
  · rw [normStyle, pyGetD, h2]
    rfl

/-! ## Witnesses: the hypothesis-bearing claim theorems at concrete inputs -/

/-- C2 witness: two lines with identical key "Alpha"/"M" and quantities
5 and 3 build a single-key index with expected 8 and received 0. -/
theorem claim_C2_witness :
    ([(("Alpha", "M"), (⟨8, 0⟩ : Counter))] : Items).map Prod.fst
        = firstSeen ([wlineA, wlineB].map lineKey) ∧
    (([(("Alpha", "M"), (⟨8, 0⟩ : Counter))] : Items).map Prod.fst).Nodup ∧
    (∀ kc ∈ ([(("Alpha", "M"), (⟨8, 0⟩ : Counter))] : Items),
      kc.2.expected = sumQtyFor kc.1 [wlineA, wlineB] ∧ kc.2.received = 0) :=
  claim_C2 [wlineA, wlineB] [(("Alpha", "M"), ⟨8, 0⟩)] rfl

/-- C6 witness: a nonempty challan whose lines are a well-formed line and
an all-defaults line reconciles to a report. -/
theorem claim_C6_witness :
    (∃ rows, run_reconciliation goodChallan [stickA] = .report rows) ∧
    (∀ d : PyDict, pyGetD? d "qty_units_expected" = none → qtyVal (.obj d) = 0) ∧
    (∀ d : PyDict, pyGetD? d "material_description" = none →
      (lineKey (.obj d)).1 = "") ∧
    (∀ d : PyDict, pyGetD? d "size" = none → (lineKey (.obj d)).2 = "") :=
  claim_C6 goodChallan [stickA] [wlineA, emptyLine]
    (fun hx => List.noConfusion hx) rfl (by decide)

/-- C8 witness: two runs on the same concrete inputs agree, and the report
characterization holds there. -/
theorem claim_C8_witness :
    run_reconciliation goodChallan [] = run_reconciliation goodChallan [] ∧
    (∀ (rows : List Row) (items : Items),
      run_reconciliation goodChallan [] = .report rows →
      buildExpectedIndex (pyGetD goodChallan "lines" (.arr [])) = .ok items →
      rows = (processStickers items []).1.map indexRow ++
        (processStickers items []).2.map unmatchedRow) :=
  claim_C8 goodChallan [] (run_reconciliation goodChallan [])
    (run_reconciliation goodChallan []) rfl rfl

/-- C9 witness: one challan line expecting 2, one matching sticker — the
report's Received column sums to 1, the sticker count. -/
theorem claim_C9_witness :
    (([{ challanDescription := "Alpha", size := JVal.str "M", expected := 2,
         received := 1, variance := -1, status := "⚠️ SHORT" }] : List Row).map
       Row.received).sum = (([stickA] : List PyDict).length : Int) :=
  claim_C9 simpleChallan [stickA]
    [{ challanDescription := "Alpha", size := JVal.str "M", expected := 2,
       received := 1, variance := -1, status := "⚠️ SHORT" }] rfl

/-- C10 witness: an all-defaults sticker (missing style) against a
one-key index. -/
theorem claim_C10_witness :
    (matchOne [(("Alpha", "M"), (⟨2, 0⟩ : Counter))] (normStyle []) (normSize []) =
      match firstIdx? (fun kc : (String × String) × Counter => kc.1.2 == normSize [])
          [(("Alpha", "M"), (⟨2, 0⟩ : Counter))] with
      | some i => (incAt [(("Alpha", "M"), (⟨2, 0⟩ : Counter))] i, true)
      | none => ([(("Alpha", "M"), (⟨2, 0⟩ : Counter))], false)) ∧
    ((matchOne [(("Alpha", "M"), (⟨2, 0⟩ : Counter))] (normStyle []) (normSize [])).2
        = false ↔
      ∀ kc ∈ ([(("Alpha", "M"), (⟨2, 0⟩ : Counter))] : Items), kc.1.2 ≠ normSize []) ∧
    (∀ st2 : PyDict, pyGetD? st2 "style" = none → normStyle st2 = "") :=
  claim_C10 [] [(("Alpha", "M"), ⟨2, 0⟩)] rfl

end Warehouse
